import Mathlib

/-!
Shallow embedding of `src/pdf2packet/pdf2packet.py` (repository dansherpa/pdf2packet).

The program splits a PDF into several output PDFs at separator pages that carry
a QR barcode.  The external collaborators (PyPDF4 page/image extraction, PIL
image decoding, the pyzxing barcode reader) are modelled abstractly: a page is a
list of XObjects, each XObject carries its `/Subtype`, its `/Filter` value and
the grayscale pixel data of its image, and the barcode reader is an arbitrary
function from the binarized pixel data to a list of decode results.
-/

namespace Pdf2Packet

/-- One entry of the list returned by `BarCodeReader.decode`: a dict that may or
may not have a `parsed` key (modelled as an `Option`); `r['parsed'].decode('ascii')`
is modelled as the carried string. -/
structure BarcodeResult where
  parsed : Option String
  deriving DecidableEq

/-- Python substring containment `pat in s`, on character lists. -/
def occursIn (pat : List Char) : List Char → Bool
  | [] => decide (pat = [])
  | c :: rest => pat.isPrefixOf (c :: rest) || occursIn pat rest

/-- Python `s.partition(pat)[2]`: the part of `s` after the first occurrence of
`pat`, and `""` when `pat` does not occur. -/
def afterFirst (pat : List Char) : List Char → List Char
  | [] => []
  | c :: rest =>
    if pat.isPrefixOf (c :: rest) then (c :: rest).drop pat.length
    else afterFirst pat rest

/-- `extract_barcodes` (pdf2packet.py lines 31-41).  Folds over the decode
results; for each result with a `parsed` key, if the payload contains the
hardcoded `"RPSEQ:"` the `sep` accumulator becomes `barcode.partition(":")[2]`,
and if it contains `"RC:"` the `race` accumulator becomes
`barcode.partition(": ")[2]`.  Returns the pair `(sep, race)`. -/
def extract_barcodes (results : List BarcodeResult) : String × String :=
  results.foldl
    (fun acc r =>
      match r.parsed with
      | none => acc
      | some barcode =>
        let s := if occursIn "RPSEQ:".data barcode.data
                 then String.mk (afterFirst ":".data barcode.data) else acc.1
        let rc := if occursIn "RC:".data barcode.data
                  then String.mk (afterFirst ": ".data barcode.data) else acc.2
        (s, rc))
    ("", "")

/-- An XObject of a page: `/Subtype` is `'/Image'` or not, the `/Filter` value
(as the string Python's `in` operator is applied to), and the 8-bit grayscale
pixel data the PIL `convert('L')` step produces for the image. -/
structure XObj where
  subtypeImage : Bool
  filter : String
  gray : List Int
  deriving DecidableEq

/-- A page is the ordered list of its XObjects. -/
abbrev Page := List XObj

/-- The filter test of lines 93-95: `'/FlateDecode' in filter or '/DCTDecode'
in filter or '/JPXDecode' in filter`. -/
def supportedFilter (f : String) : Bool :=
  occursIn "/FlateDecode".data f.data || occursIn "/DCTDecode".data f.data ||
    occursIn "/JPXDecode".data f.data

/-- The binarization lambda of line 98: `fn = lambda x: 255 if x > self.brightness else 0`. -/
def binarizePixel (brightness : Int) (x : Int) : Int :=
  if x > brightness then 255 else 0

/-- The module-level clamp of `args.brightness` (lines 164-167). -/
def clampBrightness (b : Int) : Int :=
  let b1 := if b < 0 then 0 else b
  if b1 > 255 then 255 else b1

/-- The abstract barcode reader: from the binarized pixel data of one image file
to the list of decode results. -/
abbrev Decoder := List Int → List BarcodeResult

/-- The per-page classification loop of lines 87-115: iterate the page's
XObjects; for each one with `/Subtype` `'/Image'` and a supported filter,
binarize its pixels and decode; when the decoded `sep` is truthy record
`(new_sep, new_race)` (last wins) and set `split`.  Returns
`(split, new_sep, new_race)`; the last two components are only meaningful when
`split = true` (initialised to `""` here; the Python locals are simply unset). -/
def classifyPage (dec : Decoder) (brightness : Int) (p : Page) :
    Bool × String × String :=
  p.foldl
    (fun acc obj =>
      if obj.subtypeImage && supportedFilter obj.filter then
        let res := extract_barcodes (dec (obj.gray.map (binarizePixel brightness)))
        if res.1 ≠ "" then (true, res.1, res.2) else acc
      else acc)
    (false, "", "")

/-- The configuration split_qr reads from the global `args`: `args.prefix`
(field `pfx`, never used by the algorithm), `args.keep_page`, `args.keep_page_next`. -/
structure Config where
  pfx : String
  keepPage : Bool
  keepPageNext : Bool
  deriving DecidableEq

/-- The file name computation of lines 120-123 and 145-148:
`label + "-" + race + ".pdf"` when `last_race` is truthy, else `label + ".pdf"`. -/
def outputName (label race : String) : String :=
  if race ≠ "" then label ++ "-" ++ race ++ ".pdf" else label ++ ".pdf"

/-- The mutable state of `split_qr`: the counter, the pages currently in
`pdf_writer` (as 0-based page indices of the source document), the pending
`last_label` / `last_race` pair, and the files written so far (file name and
the page indices written into it). -/
structure SplitState where
  pdfs_count : Nat
  writer : List Nat
  last_label : String
  last_race : String
  outputs : List (String × List Nat)
  deriving DecidableEq

/-- The initial state of `split_qr` (lines 66-72): counter 0, empty writer,
`last_label = "999 Unknown"`, `last_race = ""`. -/
def initState : SplitState :=
  { pdfs_count := 0, writer := [], last_label := "999 Unknown",
    last_race := "", outputs := [] }

/-- One iteration of the `while` loop (lines 74-143) for the page with index
`i`.  If the page classifies as a separator: optionally keep the page in the
closing document, compute the output name from the pending pair, replace the
pending pair with the newly decoded one, flush the writer if non-empty
(incrementing the counter), start a fresh writer, optionally seeded with the
separator page.  Otherwise append the page to the writer. -/
def stepPage (dec : Decoder) (brightness : Int) (cfg : Config)
    (st : SplitState) (i : Nat) (p : Page) : SplitState :=
  let c := classifyPage dec brightness p
  if c.1 then
    let w := if cfg.keepPage then st.writer ++ [i] else st.writer
    let out := outputName st.last_label st.last_race
    let flushed := w ≠ []
    { pdfs_count := st.pdfs_count + (if flushed then 1 else 0)
      writer := if cfg.keepPageNext then [i] else []
      last_label := c.2.1
      last_race := c.2.2
      outputs := st.outputs ++ (if flushed then [(out, w)] else []) }
  else
    { st with writer := st.writer ++ [i] }

/-- The `while current_page != self.total_pages` loop, processing the remaining
pages `ps`, the next of which has index `i`. -/
def runPages (dec : Decoder) (brightness : Int) (cfg : Config) :
    SplitState → Nat → List Page → SplitState
  | st, _, [] => st
  | st, i, p :: ps => runPages dec brightness cfg (stepPage dec brightness cfg st i p) (i + 1) ps

/-- The terminal flush of lines 145-154: compute the output name from the
pending pair and, if the writer is non-empty, write it and increment the
counter. -/
def finalFlush (st : SplitState) : SplitState :=
  if st.writer ≠ [] then
    { st with
      pdfs_count := st.pdfs_count + 1
      outputs := st.outputs ++ [(outputName st.last_label st.last_race, st.writer)]
      writer := [] }
  else st

set_option linter.unusedVariables false in
/-- `PdfQrSplit.split_qr` (lines 59-156).  `split_text` is the `--separator`
value passed in at line 178; note the body never consults it (the classifier
hardcodes `"RPSEQ:"`). -/
def split_qr (dec : Decoder) (brightness : Int) (cfg : Config)
    (split_text : String) (pages : List Page) : SplitState :=
  finalFlush (runPages dec brightness cfg initState 0 pages)

/-! Concrete inputs used to exercise the embedding.  The decoders key on the
length of the binarized pixel list, so images with distinct pixel counts stand
for pages carrying distinct barcodes. -/

/-- An image XObject with a supported filter and `n` grayscale pixels of
brightness 200. -/
def imgN (n : Nat) : XObj := ⟨true, "/DCTDecode", List.replicate n 200⟩

/-- A page with no XObjects at all. -/
def pagePlain : Page := []

/-- Configuration with neither keep-page flag. -/
def cfg0 : Config := ⟨"split", false, false⟩

/-- Configuration with both keep-page flags. -/
def cfgBoth : Config := ⟨"split", true, true⟩

/-- Decoder for which a 1-pixel image carries the payload `"FOO:X"` and a
2-pixel image carries `"RPSEQ:Y"`. -/
def decFoo : Decoder
  | [_] => [⟨some "FOO:X"⟩]
  | [_, _] => [⟨some "RPSEQ:Y"⟩]
  | _ => []

/-- Decoder for which a 1-pixel image carries the payload `"RPSEQ:A"`. -/
def decA : Decoder
  | [_] => [⟨some "RPSEQ:A"⟩]
  | _ => []

/-- Decoder for the secondary-id scenarios: a 1-pixel image carries
`"RPSEQ:EVENT1"`, a 2-pixel image carries `"RC: 100"`, and a 3-pixel image
carries both payloads at once. -/
def decDemo : Decoder
  | [_] => [⟨some "RPSEQ:EVENT1"⟩]
  | [_, _] => [⟨some "RC: 100"⟩]
  | [_, _, _] => [⟨some "RPSEQ:EVENT1"⟩, ⟨some "RC: 100"⟩]
  | _ => []

/-- A page whose only XObjects are a non-image and an image with an
unsupported (`/LZWDecode`) filter. -/
def pageUnsupported : Page := [⟨false, "/Form", [200]⟩, ⟨true, "/LZWDecode", [200]⟩]

/-- The invariant `split_qr` maintains: the counter equals the number of files
written, and every file written holds at least one page. -/
def countInv (st : SplitState) : Prop :=
  st.pdfs_count = st.outputs.length ∧ ∀ o ∈ st.outputs, o.2 ≠ []

/-- Page index `x` occurs neither in the writer nor in any file written. -/
def avoidsIdx (x : Nat) (st : SplitState) : Prop :=
  x ∉ st.writer ∧ ∀ o ∈ st.outputs, x ∉ o.2

/-- Invariant behind the default name of the first flushed file: while nothing
has been written, the pending pair is still the initial one and the writer is
non-empty; once something has been written, the first file written bears the
default name. -/
def firstDefaultInv (st : SplitState) : Prop :=
  (st.outputs = [] → st.last_label = "999 Unknown" ∧ st.last_race = "" ∧ st.writer ≠ []) ∧
  (∀ o, st.outputs.head? = some o → o.1 = "999 Unknown.pdf")

end Pdf2Packet

namespace Pdf2Packet

theorem stepPage_not_sep (dec : Decoder) (b : Int) (cfg : Config)
    (st : SplitState) (i : Nat) (p : Page)
    (h : (classifyPage dec b p).1 = false) :
    stepPage dec b cfg st i p = { st with writer := st.writer ++ [i] } := by
  simp [stepPage, h]

theorem stepPage_outputs_mono (dec : Decoder) (b : Int) (cfg : Config)
    (st : SplitState) (i : Nat) (p : Page) :
    ∃ t, (stepPage dec b cfg st i p).outputs = st.outputs ++ t := by
  unfold stepPage
  dsimp only
  split
  · exact ⟨_, rfl⟩
  · exact ⟨[], by simp⟩

theorem runPages_outputs_mono (dec : Decoder) (b : Int) (cfg : Config) :
    ∀ (ps : List Page) (st : SplitState) (i : Nat),
      ∃ t, (runPages dec b cfg st i ps).outputs = st.outputs ++ t
  | [], st, i => ⟨[], by simp [runPages]⟩
  | p :: ps, st, i => by
    obtain ⟨t1, h1⟩ := stepPage_outputs_mono dec b cfg st i p
    obtain ⟨t2, h2⟩ := runPages_outputs_mono dec b cfg ps (stepPage dec b cfg st i p) (i + 1)
    exact ⟨t1 ++ t2, by simp [runPages, h2, h1]⟩

theorem finalFlush_outputs_mono (st : SplitState) :
    ∃ t, (finalFlush st).outputs = st.outputs ++ t := by
  unfold finalFlush
  split
  · exact ⟨_, rfl⟩
  · exact ⟨[], by simp⟩

theorem stepPage_countInv {dec : Decoder} {b : Int} {cfg : Config}
    {st : SplitState} (i : Nat) (p : Page) (h : countInv st) :
    countInv (stepPage dec b cfg st i p) := by
  obtain ⟨hc, hne⟩ := h
  unfold stepPage
  dsimp only
  split
  · by_cases hw : (if cfg.keepPage then st.writer ++ [i] else st.writer) = []
    · simpa [countInv, hw, hc] using hne
    · refine ⟨by simp [hc, hw], ?_⟩
      intro o ho
      simp only [List.mem_append] at ho
      rcases ho with h1 | h2
      · exact hne o h1
      · rw [if_pos hw] at h2
        simp only [List.mem_singleton] at h2
        subst h2
        exact hw
  · exact ⟨hc, hne⟩

theorem runPages_countInv {dec : Decoder} {b : Int} {cfg : Config} :
    ∀ (ps : List Page) (st : SplitState) (i : Nat), countInv st →
      countInv (runPages dec b cfg st i ps)
  | [], _, _, h => h
  | _ :: _, _, i, h =>
    runPages_countInv _ _ (i + 1) (stepPage_countInv i _ h)

theorem finalFlush_countInv {st : SplitState} (h : countInv st) :
    countInv (finalFlush st) := by
  obtain ⟨hc, hne⟩ := h
  unfold finalFlush
  split
  case isTrue hw =>
    refine ⟨by simp [hc], ?_⟩
    intro o ho
    simp only [List.mem_append, List.mem_singleton] at ho
    rcases ho with h1 | h2
    · exact hne o h1
    · subst h2; exact hw
  case isFalse => exact ⟨hc, hne⟩

theorem runPages_noSep (dec : Decoder) (b : Int) (cfg : Config) :
    ∀ (ps : List Page) (st : SplitState) (i : Nat),
      (∀ p ∈ ps, (classifyPage dec b p).1 = false) →
      ∃ l, runPages dec b cfg st i ps = { st with writer := st.writer ++ l } ∧
        l.length = ps.length
  | [], _, _, _ => ⟨[], by simp [runPages], rfl⟩
  | p :: ps, st, i, h => by
    have hp : (classifyPage dec b p).1 = false := h p (List.mem_cons_self p ps)
    have hrest : ∀ q ∈ ps, (classifyPage dec b q).1 = false :=
      fun q hq => h q (List.mem_cons_of_mem p hq)
    obtain ⟨l, hl, hlen⟩ :=
      runPages_noSep dec b cfg ps { st with writer := st.writer ++ [i] } (i + 1) hrest
    refine ⟨i :: l, ?_, by simp [hlen]⟩
    show runPages dec b cfg (stepPage dec b cfg st i p) (i + 1) ps = _
    rw [stepPage_not_sep dec b cfg st i p hp, hl]
    simp [List.append_assoc]

theorem outputName_default : outputName "999 Unknown" "" = "999 Unknown.pdf" := by
  decide

theorem stepPage_sep_flush (dec : Decoder) (b : Int) (cfg : Config)
    (st : SplitState) (i : Nat) (p : Page)
    (h : (classifyPage dec b p).1 = true)
    (hw : (if cfg.keepPage then st.writer ++ [i] else st.writer) ≠ []) :
    stepPage dec b cfg st i p =
      { pdfs_count := st.pdfs_count + 1
        writer := if cfg.keepPageNext then [i] else []
        last_label := (classifyPage dec b p).2.1
        last_race := (classifyPage dec b p).2.2
        outputs := st.outputs ++
          [(outputName st.last_label st.last_race,
            if cfg.keepPage then st.writer ++ [i] else st.writer)] } := by
  simp [stepPage, h, hw]

theorem stepPage_sep_noflush (dec : Decoder) (b : Int) (cfg : Config)
    (st : SplitState) (i : Nat) (p : Page)
    (h : (classifyPage dec b p).1 = true)
    (hw : (if cfg.keepPage then st.writer ++ [i] else st.writer) = []) :
    stepPage dec b cfg st i p =
      { pdfs_count := st.pdfs_count
        writer := if cfg.keepPageNext then [i] else []
        last_label := (classifyPage dec b p).2.1
        last_race := (classifyPage dec b p).2.2
        outputs := st.outputs } := by
  simp [stepPage, h, hw]

theorem flushRun_outputs_mono (dec : Decoder) (b : Int) (cfg : Config)
    (ps : List Page) (st : SplitState) (i : Nat) :
    ∃ t, (finalFlush (runPages dec b cfg st i ps)).outputs = st.outputs ++ t := by
  obtain ⟨t1, h1⟩ := runPages_outputs_mono dec b cfg ps st i
  obtain ⟨t2, h2⟩ := finalFlush_outputs_mono (runPages dec b cfg st i ps)
  exact ⟨t1 ++ t2, by rw [h2, h1, List.append_assoc]⟩

theorem foldl_fixed {α β : Type} (f : α → β → α) :
    ∀ (l : List β) (a : α), (∀ o ∈ l, ∀ x, f x o = x) → l.foldl f a = a
  | [], _, _ => rfl
  | o :: l, a, h => by
    rw [List.foldl_cons, h o (List.mem_cons_self o l) a]
    exact foldl_fixed f l a fun o' ho' => h o' (List.mem_cons_of_mem o ho')

theorem classifyPage_skip (dec : Decoder) (b : Int) (p : Page)
    (h : ∀ o ∈ p, (o.subtypeImage && supportedFilter o.filter) = false) :
    classifyPage dec b p = (false, "", "") := by
  unfold classifyPage
  exact foldl_fixed _ p _ fun o ho x => by simp [h o ho]

/-- Claim C2: `split_qr` returns the number of files flushed; zero input pages
flush nothing (counter 0); at least one page and no separator pages flush
exactly one file named with the sentinel default label (counter 1); and only
non-empty in-progress documents are ever flushed. -/
theorem split_qr_count_correct (dec : Decoder) (b : Int) (cfg : Config) (t : String)
    (pages qs : List Page) (h1 : qs ≠ [])
    (h2 : ∀ p ∈ qs, (classifyPage dec b p).1 = false) :
    (split_qr dec b cfg t []).pdfs_count = 0 ∧
    (split_qr dec b cfg t []).outputs = [] ∧
    (split_qr dec b cfg t pages).pdfs_count = (split_qr dec b cfg t pages).outputs.length ∧
    (∀ o ∈ (split_qr dec b cfg t pages).outputs, o.2 ≠ []) ∧
    (split_qr dec b cfg t qs).outputs.map Prod.fst = ["999 Unknown.pdf"] ∧
    (split_qr dec b cfg t qs).pdfs_count = 1 := by
  have hinv : countInv (split_qr dec b cfg t pages) :=
    finalFlush_countInv (runPages_countInv pages initState 0 ⟨rfl, by simp [initState]⟩)
  obtain ⟨l, hl, hlen⟩ := runPages_noSep dec b cfg qs initState 0 h2
  have hlne : l ≠ [] := by
    intro h0
    subst h0
    exact h1 (List.length_eq_zero.mp hlen.symm)
  have hrun : split_qr dec b cfg t qs =
      { pdfs_count := 1, writer := [], last_label := "999 Unknown",
        last_race := "", outputs := [("999 Unknown.pdf", l)] } := by
    rw [split_qr, hl]
    simp [finalFlush, initState, hlne, outputName_default]
  refine ⟨?_, ?_, hinv.1, hinv.2, ?_, ?_⟩
  · simp [split_qr, runPages, finalFlush, initState]
  · simp [split_qr, runPages, finalFlush, initState]
  · rw [hrun]
    simp
  · rw [hrun]

theorem split_qr_count_correct_witness :
    ([pagePlain] : List Page) ≠ [] ∧
    (∀ p ∈ ([pagePlain] : List Page), (classifyPage decA 128 p).1 = false) ∧
    (split_qr decA 128 cfg0 "RPSEQ:" []).pdfs_count = 0 ∧
    (split_qr decA 128 cfg0 "RPSEQ:" [pagePlain]).pdfs_count = 1 :=
  ⟨by decide, by decide, by decide,
    (split_qr_count_correct decA 128 cfg0 "RPSEQ:" [] [pagePlain]
      (by decide) (by decide)).2.2.2.2.2⟩

/-- Claim C7: a source document with at least one page and no separator pages
produces exactly one output file named `"999 Unknown.pdf"`: the sentinel
default label is the concrete string `"999 Unknown"` with empty secondary id,
and no `"-"` appears in the name. -/
theorem split_qr_default_output_name (dec : Decoder) (b : Int) (cfg : Config)
    (t : String) (qs : List Page) (h1 : qs ≠ [])
    (h2 : ∀ p ∈ qs, (classifyPage dec b p).1 = false) :
    (∃ w, (split_qr dec b cfg t qs).outputs = [("999 Unknown.pdf", w)] ∧
      w.length = qs.length) ∧
    (split_qr dec b cfg t qs).pdfs_count = 1 ∧
    initState.last_label = "999 Unknown" ∧ initState.last_race = "" ∧
    occursIn "-".data "999 Unknown.pdf".data = false := by
  obtain ⟨l, hl, hlen⟩ := runPages_noSep dec b cfg qs initState 0 h2
  have hlne : l ≠ [] := by
    intro h0
    subst h0
    exact h1 (List.length_eq_zero.mp hlen.symm)
  have hrun : split_qr dec b cfg t qs =
      { pdfs_count := 1, writer := [], last_label := "999 Unknown",
        last_race := "", outputs := [("999 Unknown.pdf", l)] } := by
    rw [split_qr, hl]
    simp [finalFlush, initState, hlne, outputName_default]
  exact ⟨⟨l, by rw [hrun], hlen⟩, by rw [hrun], rfl, rfl, by decide⟩

theorem split_qr_default_output_name_witness :
    ([pagePlain] : List Page) ≠ [] ∧
    (split_qr decA 128 cfg0 "RPSEQ:" [pagePlain]).pdfs_count = 1 :=
  ⟨by decide,
    (split_qr_default_output_name decA 128 cfg0 "RPSEQ:" [pagePlain]
      (by decide) (by decide)).2.1⟩

/-- Claim C9: a page with zero embedded images, or whose embedded images all
use a filter outside the supported set, is never classified as a separator and
is appended to the current output document like any non-separator page. -/
theorem unsupported_images_not_separator (dec : Decoder) (b : Int) (cfg : Config)
    (st : SplitState) (i : Nat) (p : Page)
    (h : ∀ o ∈ p, o.subtypeImage = false ∨ supportedFilter o.filter = false) :
    (classifyPage dec b p).1 = false ∧
    stepPage dec b cfg st i p = { st with writer := st.writer ++ [i] } := by
  have hc : classifyPage dec b p = (false, "", "") :=
    classifyPage_skip dec b p fun o ho => by
      rcases h o ho with h' | h' <;> simp [h']
  exact ⟨by rw [hc], stepPage_not_sep dec b cfg st i p (by rw [hc])⟩

theorem unsupported_images_not_separator_witness :
    (∀ o ∈ pageUnsupported,
      o.subtypeImage = false ∨ supportedFilter o.filter = false) ∧
    (classifyPage decA 128 pageUnsupported).1 = false ∧
    (classifyPage decA 128 pagePlain).1 = false :=
  ⟨by decide,
    (unsupported_images_not_separator decA 128 cfg0 initState 0 pageUnsupported
      (by decide)).1,
    (unsupported_images_not_separator decA 128 cfg0 initState 1 pagePlain
      (by decide)).1⟩

/-- Claim C1, evaluated at the failing input: under the barcode reader
`decFoo` and with the configured separator string `"FOO:"`, the payload
`"FOO:X"` does contain `"FOO:"` yet its page is not classified as a separator
(the whole document comes out as one file under the default name), while a
`"RPSEQ:Y"` payload still is; indeed `split_qr` is constant in its
`split_text` argument, which the body never reads. -/
theorem split_text_ignored :
    occursIn "FOO:".data "FOO:X".data = true ∧
    (classifyPage decFoo 128 [imgN 1]).1 = false ∧
    (classifyPage decFoo 128 [imgN 2]).1 = true ∧
    (split_qr decFoo 128 cfg0 "FOO:" [[imgN 1], pagePlain]).outputs.map Prod.fst
      = ["999 Unknown.pdf"] ∧
    ∀ t1 t2 : String,
      split_qr decFoo 128 cfg0 t1 [[imgN 1], pagePlain]
        = split_qr decFoo 128 cfg0 t2 [[imgN 1], pagePlain] :=
  ⟨by decide, by decide, by decide, by decide, fun _ _ => rfl⟩

/-- Claim C4, counterexample: on a page where one image decodes to
`"RPSEQ:EVENT1"` and a different image decodes to `"RC: 100"`, the classifier
yields secondary id `""` (not `"100"`), and the document closed at the next
boundary is written as `"EVENT1.pdf"`, not `"EVENT1-100.pdf"`. -/
theorem secondary_id_cross_image_dropped :
    classifyPage decDemo 128 [imgN 1, imgN 2] = (true, "EVENT1", "") ∧
    (split_qr decDemo 128 cfg0 "RPSEQ:" [[imgN 1, imgN 2], pagePlain]).outputs.map
      Prod.fst = ["EVENT1.pdf"] ∧
    ("EVENT1.pdf" : String) ≠ "EVENT1-100.pdf" := by
  decide

/-- Claim C4 as amended: the pair of payloads `"RPSEQ:EVENT1"` and `"RC: 100"`
yields label `"EVENT1"`, secondary id `"100"` and next-boundary file name
`"EVENT1-100.pdf"` when both payloads are decoded from the same image; when
the `"RC: 100"` payload sits on a different image it is discarded and the
file is named `"EVENT1.pdf"`. -/
theorem secondary_id_same_image :
    classifyPage decDemo 128 [imgN 3] = (true, "EVENT1", "100") ∧
    (split_qr decDemo 128 cfg0 "RPSEQ:" [[imgN 3], pagePlain]).outputs.map
      Prod.fst = ["EVENT1-100.pdf"] ∧
    classifyPage decDemo 128 [imgN 1, imgN 2] = (true, "EVENT1", "") ∧
    (split_qr decDemo 128 cfg0 "RPSEQ:" [[imgN 1, imgN 2], pagePlain]).outputs.map
      Prod.fst = ["EVENT1.pdf"] := by
  decide

/-- Claim C5, counterexample: for the payload `"A:RPSEQ:X"` (which contains
the prefix `"RPSEQ:"`), the extracted label is `"RPSEQ:X"` — the part after
the first `":"` — and not `"X"`, the part after the first occurrence of the
prefix; likewise for `"A: RC: 9"` the extracted secondary id is `"RC: 9"`,
not `"9"`. -/
theorem extract_barcodes_not_after_marker :
    (extract_barcodes [⟨some "A:RPSEQ:X"⟩]).1 = "RPSEQ:X" ∧
    ("RPSEQ:X" : String) ≠ "X" ∧
    (extract_barcodes [⟨some "A: RC: 9"⟩]).2 = "RC: 9" ∧
    ("RC: 9" : String) ≠ "9" := by
  decide

/-- Claim C5 as amended: for a payload containing `"RPSEQ:"` the extracted
label is the substring after the first `":"` (colon) of the payload, and for a
payload containing `"RC:"` the extracted secondary id is the substring after
the first `": "` (colon-space) of the payload (empty when there is none). -/
theorem extract_barcodes_first_colon (s1 s2 : String)
    (h1 : occursIn "RPSEQ:".data s1.data = true)
    (h2 : occursIn "RC:".data s2.data = true) :
    (extract_barcodes [⟨some s1⟩]).1 = String.mk (afterFirst ":".data s1.data) ∧
    (extract_barcodes [⟨some s2⟩]).2 = String.mk (afterFirst ": ".data s2.data) := by
  constructor
  · simp [extract_barcodes, h1]
  · simp [extract_barcodes, h2]

theorem extract_barcodes_first_colon_witness :
    occursIn "RPSEQ:".data "A:RPSEQ:X".data = true ∧
    (extract_barcodes [⟨some "A:RPSEQ:X"⟩]).1
      = String.mk (afterFirst ":".data "A:RPSEQ:X".data) :=
  ⟨by decide,
    (extract_barcodes_first_colon "A:RPSEQ:X" "RC: 9" (by decide) (by decide)).1⟩

/-- Claim C8: the brightness threshold is clamped to `[0, 255]` before use —
a run at raw input `-10` coincides with a run at `0`, and a run at `300` with
a run at `255`, both for whole-document processing and for single-page
classification; the clamp is the identity on in-range values; and
binarization sends a grayscale value to `255` exactly when it exceeds the
threshold and to `0` otherwise. -/
theorem brightness_clamped_behavior (dec : Decoder) (cfg : Config) (t : String)
    (pages : List Page) (p : Page) (b g : Int) (h1 : 0 ≤ b) (h2 : b ≤ 255) :
    split_qr dec (clampBrightness (-10)) cfg t pages
      = split_qr dec (clampBrightness 0) cfg t pages ∧
    split_qr dec (clampBrightness 300) cfg t pages
      = split_qr dec (clampBrightness 255) cfg t pages ∧
    classifyPage dec (clampBrightness (-10)) p
      = classifyPage dec (clampBrightness 0) p ∧
    classifyPage dec (clampBrightness 300) p
      = classifyPage dec (clampBrightness 255) p ∧
    clampBrightness b = b ∧
    binarizePixel b g = (if g > b then 255 else 0) := by
  have e1 : clampBrightness (-10) = clampBrightness 0 := by decide
  have e2 : clampBrightness 300 = clampBrightness 255 := by decide
  refine ⟨by rw [e1], by rw [e2], by rw [e1], by rw [e2], ?_, rfl⟩
  simp only [clampBrightness]
  rw [if_neg (not_lt.mpr h1)]
  exact if_neg (not_lt.mpr h2)

theorem brightness_clamped_behavior_witness :
    (0 : Int) ≤ 128 ∧ (128 : Int) ≤ 255 ∧ clampBrightness 128 = 128 :=
  ⟨by decide, by decide,
    (brightness_clamped_behavior decA cfg0 "RPSEQ:" [pagePlain] pagePlain 128 7
      (by decide) (by decide)).2.2.2.2.1⟩

theorem runPages_cfg_eq (dec : Decoder) (b : Int) (k kn : Bool) (p1 p2 : String) :
    ∀ (ps : List Page) (st : SplitState) (i : Nat),
      runPages dec b ⟨p1, k, kn⟩ st i ps = runPages dec b ⟨p2, k, kn⟩ st i ps
  | [], _, _ => rfl
  | p :: ps, st, i =>
    runPages_cfg_eq dec b k kn p1 p2 ps (stepPage dec b ⟨p1, k, kn⟩ st i p) (i + 1)

/-- Claim C10: output file names never depend on the `--prefix` option — two
runs differing only in that option produce the same final state and in
particular the same list of output file names, each name being derived from
the pending label and secondary id alone. -/
theorem outputs_ignore_pfx_option (dec : Decoder) (b : Int) (k kn : Bool)
    (p1 p2 t : String) (pages : List Page) :
    split_qr dec b ⟨p1, k, kn⟩ t pages = split_qr dec b ⟨p2, k, kn⟩ t pages ∧
    (split_qr dec b ⟨p1, k, kn⟩ t pages).outputs.map Prod.fst
      = (split_qr dec b ⟨p2, k, kn⟩ t pages).outputs.map Prod.fst := by
  have h := runPages_cfg_eq dec b k kn p1 p2 pages initState 0
  have e : split_qr dec b ⟨p1, k, kn⟩ t pages = split_qr dec b ⟨p2, k, kn⟩ t pages :=
    congrArg finalFlush h
  exact ⟨e, by rw [e]⟩

/-- Claim C3, counterexample: on an input whose very first page is a separator
(decoding to label `"A"`) followed by one plain page, with no keep-page flags,
the single flushed file is named `"A.pdf"` — the first flushed output document
is not named with the sentinel default label, because the separator replaced
the pending pair without any flush (the accumulated document was empty). -/
theorem first_flush_not_default :
    (classifyPage decA 128 [imgN 1]).1 = true ∧
    (split_qr decA 128 cfg0 "RPSEQ:" [[imgN 1], pagePlain]).outputs.map Prod.fst
      = ["A.pdf"] ∧
    ("A.pdf" : String) ≠ "999 Unknown.pdf" := by
  decide

theorem stepPage_firstDefaultInv (dec : Decoder) (b : Int) (cfg : Config)
    (st : SplitState) (i : Nat) (p : Page) (h : firstDefaultInv st) :
    firstDefaultInv (stepPage dec b cfg st i p) := by
  obtain ⟨hempty, hhead⟩ := h
  by_cases hc : (classifyPage dec b p).1 = true
  · by_cases hwe : (if cfg.keepPage then st.writer ++ [i] else st.writer) = []
    · have hso : st.outputs ≠ [] := by
        intro h0
        have hwr := (hempty h0).2.2
        by_cases hkp : cfg.keepPage
        · simp [hkp] at hwe
        · simp [hkp] at hwe
          exact hwr hwe
      rw [stepPage_sep_noflush dec b cfg st i p hc hwe]
      exact ⟨fun h0 => absurd h0 hso, fun o ho => hhead o ho⟩
    · rw [stepPage_sep_flush dec b cfg st i p hc hwe]
      constructor
      · intro h0
        simp at h0
      · intro o ho
        cases hst : st.outputs with
        | nil =>
          rw [hst] at ho
          simp only [List.nil_append, List.head?_cons] at ho
          obtain rfl := Option.some.inj ho
          simp [(hempty hst).1, (hempty hst).2.1, outputName_default]
        | cons o1 rest =>
          rw [hst] at ho
          simp only [List.cons_append, List.head?_cons] at ho
          obtain rfl := Option.some.inj ho
          exact hhead o1 (by rw [hst]; rfl)
  · rw [stepPage_not_sep dec b cfg st i p (Bool.not_eq_true _ ▸ hc)]
    constructor
    · intro h0
      exact ⟨(hempty h0).1, (hempty h0).2.1, by simp⟩
    · exact hhead

theorem finalFlush_firstDefaultInv (st : SplitState) (h : firstDefaultInv st) :
    firstDefaultInv (finalFlush st) := by
  obtain ⟨hempty, hhead⟩ := h
  unfold finalFlush
  split
  case isTrue hw =>
    constructor
    · intro h0
      simp at h0
    · intro o ho
      cases hst : st.outputs with
      | nil =>
        rw [hst] at ho
        simp only [List.nil_append, List.head?_cons] at ho
        obtain rfl := Option.some.inj ho
        simp [(hempty hst).1, (hempty hst).2.1, outputName_default]
      | cons o1 rest =>
        rw [hst] at ho
        simp only [List.cons_append, List.head?_cons] at ho
        obtain rfl := Option.some.inj ho
        exact hhead o1 (by rw [hst]; rfl)
  case isFalse hw => exact ⟨hempty, hhead⟩

theorem runPages_firstDefaultInv (dec : Decoder) (b : Int) (cfg : Config) :
    ∀ (ps : List Page) (st : SplitState) (i : Nat), firstDefaultInv st →
      firstDefaultInv (runPages dec b cfg st i ps)
  | [], _, _, h => h
  | p :: ps, st, i, h =>
    runPages_firstDefaultInv dec b cfg ps _ (i + 1)
      (stepPage_firstDefaultInv dec b cfg st i p h)

theorem finalFlush_head_default {st : SplitState} (h : firstDefaultInv st) :
    (finalFlush st).outputs.head?.map Prod.fst = some "999 Unknown.pdf" := by
  obtain ⟨hempty, hhead⟩ := h
  unfold finalFlush
  split
  case isTrue hw =>
    cases hst : st.outputs with
    | nil => simp [hst, (hempty hst).1, (hempty hst).2.1, outputName_default]
    | cons o1 rest => simp [hst, hhead o1 (by rw [hst]; rfl)]
  case isFalse hw =>
    cases hst : st.outputs with
    | nil => exact absurd (hempty hst).2.2 hw
    | cons o1 rest => simp [hst, hhead o1 (by rw [hst]; rfl)]

/-- Claim C3 as amended: each flushed file is named from the pending
(label, secondary id) pair recorded at the most recent prior separator
(initially the sentinel default); a separator met while the accumulated
document is empty (and `keep-page` unset) replaces the pending pair without
flushing anything, so the first flushed file bears the sentinel default label
whenever the input's first page is not a separator — not for arbitrary
inputs. -/
theorem naming_one_step_behind (dec : Decoder) (b : Int) (cfg cfg2 : Config)
    (t : String) (p0 q : Page) (ps : List Page) (st2 : SplitState) (i2 : Nat)
    (h : (classifyPage dec b p0).1 = false)
    (hq : (classifyPage dec b q).1 = true)
    (hw : st2.writer = []) (hk : cfg2.keepPage = false) :
    (split_qr dec b cfg t (p0 :: ps)).outputs.head?.map Prod.fst
      = some "999 Unknown.pdf" ∧
    (stepPage dec b cfg2 st2 i2 q).outputs = st2.outputs ∧
    (stepPage dec b cfg2 st2 i2 q).pdfs_count = st2.pdfs_count ∧
    (stepPage dec b cfg2 st2 i2 q).last_label = (classifyPage dec b q).2.1 ∧
    (stepPage dec b cfg2 st2 i2 q).last_race = (classifyPage dec b q).2.2 := by
  have hst1 : stepPage dec b cfg initState 0 p0
      = { initState with writer := initState.writer ++ [0] } :=
    stepPage_not_sep dec b cfg initState 0 p0 h
  have hinv1 : firstDefaultInv (stepPage dec b cfg initState 0 p0) := by
    rw [hst1]
    exact ⟨fun _ => ⟨rfl, rfl, by simp [initState]⟩,
      fun o ho => by simp [initState] at ho⟩
  have hinv2 := runPages_firstDefaultInv dec b cfg ps
    (stepPage dec b cfg initState 0 p0) 1 hinv1
  have hmain : (split_qr dec b cfg t (p0 :: ps)).outputs.head?.map Prod.fst
      = some "999 Unknown.pdf" := finalFlush_head_default hinv2
  have hw2 : (if cfg2.keepPage then st2.writer ++ [i2] else st2.writer) = [] := by
    simp [hk, hw]
  have hs := stepPage_sep_noflush dec b cfg2 st2 i2 q hq hw2
  exact ⟨hmain, by rw [hs], by rw [hs], by rw [hs], by rw [hs]⟩

theorem runPages_append (dec : Decoder) (b : Int) (cfg : Config) :
    ∀ (xs ys : List Page) (st : SplitState) (i : Nat),
      runPages dec b cfg st i (xs ++ ys)
        = runPages dec b cfg (runPages dec b cfg st i xs) (i + xs.length) ys
  | [], ys, st, i => by simp [runPages]
  | x :: xs, ys, st, i => by
    show runPages dec b cfg (stepPage dec b cfg st i x) (i + 1) (xs ++ ys) = _
    rw [runPages_append dec b cfg xs ys (stepPage dec b cfg st i x) (i + 1),
      show i + 1 + xs.length = i + (x :: xs).length from by simp; omega]
    rfl

theorem split_qr_split_at (dec : Decoder) (b : Int) (cfg : Config) (t : String)
    (pre post : List Page) (p : Page) :
    split_qr dec b cfg t (pre ++ p :: post)
      = finalFlush (runPages dec b cfg
          (stepPage dec b cfg (runPages dec b cfg initState 0 pre) pre.length p)
          (pre.length + 1) post) := by
  unfold split_qr
  rw [runPages_append dec b cfg pre (p :: post) initState 0]
  simp only [Nat.zero_add]
  rfl

theorem writer_flushed (dec : Decoder) (b : Int) (cfg : Config) (x : Nat) :
    ∀ (ps : List Page) (st : SplitState) (i : Nat), x ∈ st.writer →
      ∃ t, (finalFlush (runPages dec b cfg st i ps)).outputs = st.outputs ++ t ∧
        ∃ o ∈ t, x ∈ o.2
  | [], st, _, hx => by
    have hw : st.writer ≠ [] := List.ne_nil_of_mem hx
    refine ⟨[(outputName st.last_label st.last_race, st.writer)], ?_, ?_⟩
    · show (finalFlush st).outputs = _
      simp [finalFlush, hw]
    · exact ⟨_, List.mem_singleton_self _, hx⟩
  | p :: ps, st, i, hx => by
    by_cases hc : (classifyPage dec b p).1 = true
    · have hxw : x ∈ (if cfg.keepPage then st.writer ++ [i] else st.writer) := by
        by_cases hkp : cfg.keepPage
        · simp only [hkp, if_true]
          exact List.mem_append_left _ hx
        · simpa [hkp] using hx
      have hwne : (if cfg.keepPage then st.writer ++ [i] else st.writer) ≠ [] :=
        List.ne_nil_of_mem hxw
      have hs := stepPage_sep_flush dec b cfg st i p hc hwne
      obtain ⟨t2, ht2⟩ :=
        flushRun_outputs_mono dec b cfg ps (stepPage dec b cfg st i p) (i + 1)
      refine ⟨(outputName st.last_label st.last_race,
          if cfg.keepPage then st.writer ++ [i] else st.writer) :: t2, ?_, ?_⟩
      · show (finalFlush (runPages dec b cfg (stepPage dec b cfg st i p)
            (i + 1) ps)).outputs = _
        rw [ht2, hs]
        simp
      · exact ⟨_, List.mem_cons_self _ _, hxw⟩
    · have hs := stepPage_not_sep dec b cfg st i p (Bool.not_eq_true _ ▸ hc)
      have hx' : x ∈ (stepPage dec b cfg st i p).writer := by
        rw [hs]
        exact List.mem_append_left _ hx
      obtain ⟨t, ht, ho⟩ :=
        writer_flushed dec b cfg x ps (stepPage dec b cfg st i p) (i + 1) hx'
      refine ⟨t, ?_, ho⟩
      show (finalFlush (runPages dec b cfg (stepPage dec b cfg st i p)
          (i + 1) ps)).outputs = _
      rw [ht, hs]

theorem stepPage_avoids (dec : Decoder) (b : Int) (cfg : Config) (x : Nat)
    (st : SplitState) (i : Nat) (p : Page) (hst : avoidsIdx x st) (hix : i ≠ x) :
    avoidsIdx x (stepPage dec b cfg st i p) := by
  obtain ⟨hw, ho⟩ := hst
  have hxw : x ∉ (if cfg.keepPage then st.writer ++ [i] else st.writer) := by
    by_cases hkp : cfg.keepPage
    · simp only [hkp, if_true, List.mem_append, List.mem_singleton]
      rintro (h1 | h1)
      · exact hw h1
      · exact hix h1.symm
    · simpa [hkp] using hw
  have hnext : x ∉ (if cfg.keepPageNext then ([i] : List Nat) else []) := by
    by_cases hkn : cfg.keepPageNext
    · simp only [hkn, if_true, List.mem_singleton]
      exact fun h1 => hix h1.symm
    · simp [hkn]
  by_cases hc : (classifyPage dec b p).1 = true
  · by_cases hwe : (if cfg.keepPage then st.writer ++ [i] else st.writer) = []
    · rw [stepPage_sep_noflush dec b cfg st i p hc hwe]
      exact ⟨hnext, ho⟩
    · rw [stepPage_sep_flush dec b cfg st i p hc hwe]
      refine ⟨hnext, ?_⟩
      intro o hoo
      rcases List.mem_append.mp hoo with h1 | h2
      · exact ho o h1
      · rw [List.mem_singleton] at h2
        subst h2
        exact hxw
  · rw [stepPage_not_sep dec b cfg st i p (Bool.not_eq_true _ ▸ hc)]
    refine ⟨?_, ho⟩
    simp only [List.mem_append, List.mem_singleton]
    rintro (h1 | h1)
    · exact hw h1
    · exact hix h1.symm

theorem stepPage_sep_avoids (dec : Decoder) (b : Int) (cfg : Config) (x : Nat)
    (st : SplitState) (p : Page) (hc : (classifyPage dec b p).1 = true)
    (hkp : cfg.keepPage = false) (hkn : cfg.keepPageNext = false)
    (h : avoidsIdx x st) : avoidsIdx x (stepPage dec b cfg st x p) := by
  obtain ⟨hw, ho⟩ := h
  have hwif : (if cfg.keepPage then st.writer ++ [x] else st.writer) = st.writer := by
    simp [hkp]
  by_cases hwe : st.writer = []
  · rw [stepPage_sep_noflush dec b cfg st x p hc (by rw [hwif]; exact hwe)]
    exact ⟨by simp [hkn], ho⟩
  · rw [stepPage_sep_flush dec b cfg st x p hc (by rw [hwif]; exact hwe)]
    refine ⟨by simp [hkn], ?_⟩
    intro o hoo
    rcases List.mem_append.mp hoo with h1 | h2
    · exact ho o h1
    · rw [List.mem_singleton] at h2
      subst h2
      rw [hwif]
      exact hw

theorem runPages_avoids (dec : Decoder) (b : Int) (cfg : Config) (x : Nat) :
    ∀ (ps : List Page) (st : SplitState) (i : Nat), avoidsIdx x st →
      (x < i ∨ i + ps.length ≤ x) → avoidsIdx x (runPages dec b cfg st i ps)
  | [], _, _, h, _ => h
  | p :: ps, st, i, h, hr => by
    simp only [List.length_cons] at hr
    have hix : i ≠ x := by rcases hr with h1 | h1 <;> omega
    have hr' : x < i + 1 ∨ (i + 1) + ps.length ≤ x := by
      rcases hr with h1 | h1
      · left
        omega
      · right
        omega
    exact runPages_avoids dec b cfg x ps _ (i + 1)
      (stepPage_avoids dec b cfg x st i p h hix) hr'

theorem finalFlush_avoids (x : Nat) (st : SplitState) (h : avoidsIdx x st) :
    ∀ o ∈ (finalFlush st).outputs, x ∉ o.2 := by
  obtain ⟨hw, ho⟩ := h
  unfold finalFlush
  split
  case isTrue hne =>
    intro o hoo
    rcases List.mem_append.mp hoo with h1 | h2
    · exact ho o h1
    · rw [List.mem_singleton] at h2
      subst h2
      exact hw
  case isFalse => exact ho

/-- Claim C6: for a separator page (at position `pre.length`, after the pages
of `pre`): with both keep-page flags set it lands both in the file being
closed and in a later file (the one being opened, flushed at a later
boundary or at end of input); with neither flag set it lands in no file at
all. -/
theorem separator_page_retention (dec : Decoder) (b : Int) (t pr1 pr2 : String)
    (pre post : List Page) (p : Page)
    (hsep : (classifyPage dec b p).1 = true) :
    (∃ A c1 B, (split_qr dec b ⟨pr1, true, true⟩ t (pre ++ p :: post)).outputs
        = A ++ c1 :: B ∧ pre.length ∈ c1.2 ∧ ∃ c2 ∈ B, pre.length ∈ c2.2) ∧
    (∀ o ∈ (split_qr dec b ⟨pr2, false, false⟩ t (pre ++ p :: post)).outputs,
      pre.length ∉ o.2) := by
  constructor
  · have hsplit := split_qr_split_at dec b ⟨pr1, true, true⟩ t pre post p
    have hwne : (if (⟨pr1, true, true⟩ : Config).keepPage then
        (runPages dec b ⟨pr1, true, true⟩ initState 0 pre).writer ++ [pre.length]
        else (runPages dec b ⟨pr1, true, true⟩ initState 0 pre).writer) ≠ [] := by
      simp
    have hs := stepPage_sep_flush dec b ⟨pr1, true, true⟩
      (runPages dec b ⟨pr1, true, true⟩ initState 0 pre) pre.length p hsep hwne
    have hxw : pre.length ∈ (stepPage dec b ⟨pr1, true, true⟩
        (runPages dec b ⟨pr1, true, true⟩ initState 0 pre) pre.length p).writer := by
      rw [hs]
      simp
    obtain ⟨t2, ht2, o2, ho2, hxo2⟩ := writer_flushed dec b ⟨pr1, true, true⟩
      pre.length post _ (pre.length + 1) hxw
    refine ⟨(runPages dec b ⟨pr1, true, true⟩ initState 0 pre).outputs,
      (outputName (runPages dec b ⟨pr1, true, true⟩ initState 0 pre).last_label
          (runPages dec b ⟨pr1, true, true⟩ initState 0 pre).last_race,
        if (⟨pr1, true, true⟩ : Config).keepPage then
          (runPages dec b ⟨pr1, true, true⟩ initState 0 pre).writer ++ [pre.length]
        else (runPages dec b ⟨pr1, true, true⟩ initState 0 pre).writer),
      t2, ?_, by simp, o2, ho2, hxo2⟩
    rw [hsplit, ht2, hs]
    simp
  · have hsplit := split_qr_split_at dec b ⟨pr2, false, false⟩ t pre post p
    have hpre : avoidsIdx pre.length
        (runPages dec b ⟨pr2, false, false⟩ initState 0 pre) :=
      runPages_avoids dec b ⟨pr2, false, false⟩ pre.length pre initState 0
        ⟨by simp [initState], by simp [initState]⟩ (Or.inr (by simp))
    have hstep : avoidsIdx pre.length
        (stepPage dec b ⟨pr2, false, false⟩
          (runPages dec b ⟨pr2, false, false⟩ initState 0 pre) pre.length p) :=
      stepPage_sep_avoids dec b ⟨pr2, false, false⟩ pre.length _ p hsep rfl rfl hpre
    have hrun : avoidsIdx pre.length
        (runPages dec b ⟨pr2, false, false⟩
          (stepPage dec b ⟨pr2, false, false⟩
            (runPages dec b ⟨pr2, false, false⟩ initState 0 pre) pre.length p)
          (pre.length + 1) post) :=
      runPages_avoids dec b ⟨pr2, false, false⟩ pre.length post _ (pre.length + 1)
        hstep (Or.inl (by omega))
    rw [hsplit]
    exact finalFlush_avoids pre.length _ hrun

theorem separator_page_retention_witness :
    (classifyPage decA 128 [imgN 1]).1 = true ∧
    (∀ o ∈ (split_qr decA 128 ⟨"split", false, false⟩ "RPSEQ:"
        ([pagePlain] ++ [imgN 1] :: [])).outputs,
      ([pagePlain] : List Page).length ∉ o.2) :=
  ⟨by decide,
    (separator_page_retention decA 128 "RPSEQ:" "split" "split" [pagePlain] []
      [imgN 1] (by decide)).2⟩

theorem naming_one_step_behind_witness :
    (classifyPage decA 128 pagePlain).1 = false ∧
    (classifyPage decA 128 [imgN 1]).1 = true ∧
    (split_qr decA 128 cfgBoth "RPSEQ:" [pagePlain, [imgN 1]]).outputs.head?.map
      Prod.fst = some "999 Unknown.pdf" :=
  ⟨by decide, by decide,
    (naming_one_step_behind decA 128 cfgBoth cfg0 "RPSEQ:" pagePlain [imgN 1]
      [[imgN 1]] initState 5 (by decide) (by decide) rfl rfl).1⟩

end Pdf2Packet
